import Mathlib

/-!
Shallow embedding of the discovery-and-pairing pipeline of
src/connectors/core/connector_framework.py.

Pure functions of the source become Lean functions; filesystem facts that
the profiler consults (existence of package.json, of src/components, file
contents) are passed explicitly in an AppDir record; Python exceptions
become Except values; Python dicts become association lists in insertion
order.
-/

/-- The two quote characters of the regex character class (codepoints 39
and 34, i.e. single and double quote). -/
def isQuote (c : Char) : Bool := c = Char.ofNat 39 || c = Char.ofNat 34

/-- Match a literal character list at the front of a string; on success
return the remainder.  Models the literal part of a regex pattern. -/
def dropLit : List Char → List Char → Option (List Char)
  | [], s => some s
  | _ :: _, [] => none
  | a :: as, b :: bs => if a = b then dropLit as bs else none

/-- Attempt, at the start of s, the regex  lit['\x22]([^'\x22]+)['\x22]
(as in the route patterns of _parse_routes_from_file): the literal, one
quote, a non-empty maximal run of non-quote characters (the capture), one
quote.  Returns the capture and the remainder after the match.  Greedy
matching with backtracking is equivalent to this deterministic form: the
maximal run stops exactly at a quote or at the end, and any shorter run is
followed by a non-quote character. -/
def matchAt (lit : List Char) (s : List Char) : Option (List Char × List Char) :=
  match dropLit lit s with
  | none => none
  | some rest1 =>
    match rest1 with
    | [] => none
    | q :: rest2 =>
      if isQuote q then
        let path := rest2.takeWhile (fun c => !(isQuote c))
        match rest2.dropWhile (fun c => !(isQuote c)) with
        | [] => none
        | q2 :: rest4 =>
          if isQuote q2 then
            if path = [] then none else some (path, rest4)
          else none
      else none

/-- One step of re.findall scanning: try a match at the current position;
on success record the capture and continue after the match, otherwise
advance one character.  Fuel bounds the recursion; with fuel at least the
length of the input the fuel never runs out first, because every step
consumes at least one character. -/
def findallAux (lit : List Char) : Nat → List Char → List (List Char)
  | _, [] => []
  | 0, _ :: _ => []
  | fuel + 1, c :: rest =>
    match matchAt lit (c :: rest) with
    | some pr => pr.1 :: findallAux lit fuel pr.2
    | none => findallAux lit fuel rest

/-- re.findall of the route pattern with literal part lit over s. -/
def findall (lit : List Char) (s : List Char) : List (List Char) :=
  findallAux lit s.length s

/-- Value of a digit run, as int() of the captured group. -/
def digitsVal (ds : List Char) : Nat :=
  ds.foldl (fun acc c => acc * 10 + (c.toNat - 48)) 0

/-- re.search of PORT=(\d+): scan for the first occurrence of the literal
PORT= followed by at least one digit; return the value of the maximal
digit run there. -/
def searchPort : List Char → Option Nat
  | [] => none
  | c :: rest =>
    match dropLit "PORT=".toList (c :: rest) with
    | some r =>
      let ds := r.takeWhile Char.isDigit
      if ds = [] then searchPort rest else some (digitsVal ds)
    | none => searchPort rest

/-- ApplicationType of the source: types of applications in the ecosystem. -/
inductive ApplicationType
  | nodejs_typescript
  | python_streamlit
  | react_frontend
  | express_backend
deriving DecidableEq, Repr, Inhabited

/-- ConnectionProtocol of the source: the five supported connection
protocols. -/
inductive ConnectionProtocol
  | rest_api
  | websocket
  | graphql
  | message_queue
  | direct_function
deriving DecidableEq, Repr, Inhabited

/-- ApplicationMetadata dataclass; Python dicts become association lists,
defaults mirror the dataclass field defaults. -/
structure ApplicationMetadata where
  name : String
  type : ApplicationType
  base_path : String
  port : Option Nat := none
  api_endpoints : List String := []
  database_schema : List (String × List (String × String)) := []
  dependencies : List String := []
  integration_points : List String := []
deriving DecidableEq, Repr, Inhabited

/-- ConnectorConfig dataclass. -/
structure ConnectorConfig where
  source_app : String
  target_app : String
  protocols : List ConnectionProtocol
  data_mappings : List (String × String) := []
  transformation_rules : List String := []
  sync_frequency : String := "real_time"
  error_handling : List (String × String) := []
deriving DecidableEq, Repr, Inhabited

/-- The parsed content of a package.json, restricted to the parts the
extractors read: the scripts section (a dict name to command) and the key
lists of the dependencies and devDependencies sections; none models an
absent section. -/
structure PackageJson where
  scripts : Option (List (String × String)) := none
  dependencies : Option (List String) := none
  devDependencies : Option (List String) := none
deriving DecidableEq, Repr, Inhabited

/-- The filesystem facts that _analyze_application consults for one
application directory.  packageJson is none when the file does not exist,
and some of a parse outcome when it does (json.load either returns the
parsed value or raises).  serverFiles are the read outcomes of the files
matched by the server glob patterns, in glob order; schemaFiles likewise
for the schema patterns, keyed by path. -/
structure AppDir where
  name : String
  path : String
  packageJson : Option (Except String PackageJson) := none
  srcComponentsExists : Bool := false
  clientSrcExists : Bool := false
  serverFiles : List (Except String String) := []
  schemaFiles : List (String × Except String String) := []
deriving Repr, Inhabited

/-- _determine_application_type: explicit name override first, then
package.json presence, with the React check nested under it. -/
def determine_application_type (dir : AppDir) : ApplicationType :=
  if dir.name = "ParadoxResolver" then ApplicationType.python_streamlit
  else if dir.packageJson.isSome then
    if dir.srcComponentsExists || dir.clientSrcExists then ApplicationType.react_frontend
    else ApplicationType.nodejs_typescript
  else ApplicationType.nodejs_typescript

/-- _extract_port: needs a manifest with a scripts section; reads the dev
script (default empty) and searches it for PORT=(digits). -/
def extract_port (package_json : Option PackageJson) : Option Nat :=
  match package_json with
  | none => none
  | some pj =>
    match pj.scripts with
    | none => none
    | some scripts =>
      let dev_script := (scripts.lookup "dev").getD ""
      searchPort dev_script.toList

/-- _extract_dependencies: for each of the sections dependencies and
devDependencies present in the manifest, extend the accumulator with that
section's keys. -/
def extract_dependencies (package_json : Option PackageJson) : List String :=
  match package_json with
  | none => []
  | some pj => pj.dependencies.getD [] ++ pj.devDependencies.getD []

/-- The six Express route patterns of _parse_routes_from_file, literal
parts only, in source order. -/
def express_patterns : List String :=
  ["app.get(", "app.post(", "app.put(", "app.delete(", "router.get(", "router.post("]

/-- The regex loop of _parse_routes_from_file on decoded file content:
for each pattern in order, all its matches in scan order. -/
def parse_routes_from_text (content : String) : List String :=
  (express_patterns.flatMap (fun pat => findall pat.toList content.toList)).map String.mk

/-- _parse_routes_from_file including its try/except: a file whose read
fails contributes no endpoints. -/
def parse_routes_from_file (readOutcome : Except String String) : List String :=
  match readOutcome with
  | Except.ok content => parse_routes_from_text content
  | Except.error _ => []

/-- _extract_api_endpoints: endpoints of all server-pattern files in glob
order, concatenated. -/
def extract_api_endpoints (dir : AppDir) : List String :=
  dir.serverFiles.flatMap parse_routes_from_file

/-- _parse_schema_file: a coarse record with an empty table listing and
the first 1000 characters, or an error entry when the read fails. -/
def parse_schema_file (readOutcome : Except String String) : List (String × String) :=
  match readOutcome with
  | Except.ok content => [("tables", ""), ("raw_content", String.mk (content.toList.take 1000))]
  | Except.error e => [("error", e)]

/-- _extract_database_schema: one summary per schema-pattern file, keyed
by path. -/
def extract_database_schema (dir : AppDir) : List (String × List (String × String)) :=
  dir.schemaFiles.map (fun f => (f.1, parse_schema_file f.2))

/-- _analyze_application.  For Node.js/React kinds the manifest, when the
file exists, is loaded with json.load, whose parse failure propagates as
an exception (there is no try/except around it); an absent file leaves
package_json as None. -/
def analyze_application (dir : AppDir) : Except String ApplicationMetadata :=
  let app_type := determine_application_type dir
  let loaded : Except String (Option PackageJson) :=
    if app_type = ApplicationType.nodejs_typescript ∨ app_type = ApplicationType.react_frontend then
      match dir.packageJson with
      | some (Except.ok pj) => Except.ok (some pj)
      | some (Except.error e) => Except.error e
      | none => Except.ok none
    else Except.ok none
  match loaded with
  | Except.error e => Except.error e
  | Except.ok package_json =>
    Except.ok
      { name := dir.name
        type := app_type
        base_path := dir.path
        port := extract_port package_json
        api_endpoints := extract_api_endpoints dir
        database_schema := extract_database_schema dir
        dependencies := extract_dependencies package_json }

/-- _determine_protocols: REST if either side has endpoints, WebSocket if
the source (only) is a React frontend or Node.js app, REST as fallback
when nothing was selected. -/
def determine_protocols (source target : ApplicationMetadata) : List ConnectionProtocol :=
  let protocols : List ConnectionProtocol := []
  let protocols :=
    if source.api_endpoints ≠ [] ∨ target.api_endpoints ≠ [] then
      protocols ++ [ConnectionProtocol.rest_api]
    else protocols
  let protocols :=
    if source.type = ApplicationType.react_frontend ∨ source.type = ApplicationType.nodejs_typescript then
      protocols ++ [ConnectionProtocol.websocket]
    else protocols
  if protocols = [] then [ConnectionProtocol.rest_api] else protocols

/-- Lookup in the registry dict self.applications (keys are unique). -/
def dictGet (registry : List (String × ApplicationMetadata)) (k : String) : ApplicationMetadata :=
  ((registry.find? (fun e => e.1 = k)).map Prod.snd).getD default

/-- _create_connector_config for one ordered pair of names. -/
def create_connector_config (registry : List (String × ApplicationMetadata))
    (source_app target_app : String) : ConnectorConfig :=
  let source_meta := dictGet registry source_app
  let target_meta := dictGet registry target_app
  { source_app := source_app
    target_app := target_app
    protocols := determine_protocols source_meta target_meta
    data_mappings := []
    transformation_rules := []
    sync_frequency := "real_time" }

/-- The pair loop of generate_all_connectors: for the i-th name, every
later name, guarded by the inequality test of the source. -/
def upperPairs : List String → List (String × String)
  | [] => []
  | x :: xs => ((xs.filter (fun y => x ≠ y)).map (fun y => (x, y))) ++ upperPairs xs

/-- generate_all_connectors, returning the configs it would hand to the
generation agent, in enumeration order. -/
def generate_all_connectors (registry : List (String × ApplicationMetadata)) : List ConnectorConfig :=
  (upperPairs (registry.map Prod.fst)).map (fun p => create_connector_config registry p.1 p.2)

/-- A data-app style record with no endpoints (a ParadoxResolver-like
application), used as a concrete input. -/
def appA : ApplicationMetadata :=
  { name := "ParadoxResolver"
    type := ApplicationType.python_streamlit
    base_path := "/workspace/ParadoxResolver" }

/-- A React frontend record with no endpoints, used as a concrete input. -/
def appB : ApplicationMetadata :=
  { name := "MusicPortal"
    type := ApplicationType.react_frontend
    base_path := "/workspace/MusicPortal" }

/-- A two-application registry used as a concrete input. -/
def sampleRegistry : List (String × ApplicationMetadata) :=
  [("HumanityFrontier",
    { name := "HumanityFrontier"
      type := ApplicationType.nodejs_typescript
      base_path := "/workspace/HumanityFrontier" }),
   ("MusicPortal",
    { name := "MusicPortal"
      type := ApplicationType.react_frontend
      base_path := "/workspace/MusicPortal"
      api_endpoints := ["/api/songs"] })]

/-- A three-application registry used as a concrete input. -/
def sampleRegistry3 : List (String × ApplicationMetadata) :=
  ("SpaceAgent",
    { name := "SpaceAgent"
      type := ApplicationType.nodejs_typescript
      base_path := "/workspace/SpaceAgent" }) :: sampleRegistry

/-- A manifest declaring express in both dependency sections. -/
def dupManifest : PackageJson :=
  { scripts := none
    dependencies := some ["express"]
    devDependencies := some ["express", "jest"] }

/-- A directory whose package.json exists but does not parse. -/
def malformedManifestDir : AppDir :=
  { name := "SpaceChild"
    path := "/workspace/SpaceChild"
    packageJson := some (Except.error "Expecting value: line 1 column 1 (char 0)") }

/-- A directory with no package.json at all. -/
def absentManifestDir : AppDir :=
  { name := "SpaceAgent"
    path := "/workspace/SpaceAgent"
    packageJson := none }

/-- A directory with a components convention but no manifest. -/
def componentsNoManifestDir : AppDir :=
  { name := "HumanityFrontier"
    path := "/workspace/HumanityFrontier"
    packageJson := none
    srcComponentsExists := true }

/-- C1 counterexample: with a a data-app with no endpoints and b a React
frontend with no endpoints, select(b, a) contains WebSocket but
select(a, b) does not, so select is not symmetric in content and WebSocket
is not included when only the second argument has a live/interactive
kind. -/
theorem select_not_symmetric_counterexample :
    ConnectionProtocol.websocket ∈ determine_protocols appB appA
    ∧ ConnectionProtocol.websocket ∉ determine_protocols appA appB := by
  decide

/-- C1 (amended): the WebSocket rule of the protocol selector reads only
the first argument: WebSocket is included exactly when the first (source)
record's kind is a React frontend or a Node.js app, and REST-API is
included exactly when either side has endpoints or the first argument is
not of those kinds (the fallback); the selector is therefore not symmetric
in content. -/
theorem select_websocket_depends_on_source_only (a b : ApplicationMetadata) :
    (ConnectionProtocol.websocket ∈ determine_protocols a b ↔
      (a.type = ApplicationType.react_frontend ∨ a.type = ApplicationType.nodejs_typescript))
    ∧ (ConnectionProtocol.rest_api ∈ determine_protocols a b ↔
      (a.api_endpoints ≠ [] ∨ b.api_endpoints ≠ [] ∨
        ¬(a.type = ApplicationType.react_frontend ∨ a.type = ApplicationType.nodejs_typescript))) := by
  unfold determine_protocols
  by_cases h1 : a.api_endpoints ≠ [] ∨ b.api_endpoints ≠ [] <;>
    by_cases h2 : a.type = ApplicationType.react_frontend ∨ a.type = ApplicationType.nodejs_typescript <;>
      simp [h1, h2]

/-- C3: the protocol selector always returns a non-empty duplicate-free
sequence, and when neither record has endpoints and neither kind is
live/interactive the result is exactly the REST-API singleton. -/
theorem select_nonempty_nodup_default (a b : ApplicationMetadata) :
    determine_protocols a b ≠ []
    ∧ (determine_protocols a b).Nodup
    ∧ (a.api_endpoints = [] ∧ b.api_endpoints = [] ∧
        a.type ≠ ApplicationType.react_frontend ∧ a.type ≠ ApplicationType.nodejs_typescript ∧
        b.type ≠ ApplicationType.react_frontend ∧ b.type ≠ ApplicationType.nodejs_typescript →
        determine_protocols a b = [ConnectionProtocol.rest_api]) := by
  unfold determine_protocols
  by_cases h1 : a.api_endpoints ≠ [] ∨ b.api_endpoints ≠ [] <;>
    by_cases h2 : a.type = ApplicationType.react_frontend ∨ a.type = ApplicationType.nodejs_typescript <;>
      simp [h1, h2] <;> tauto

/-- C3 witness: the selector on two concrete records with no endpoints and
non-live kinds is the REST-API singleton (non-empty and duplicate-free). -/
theorem select_nonempty_nodup_default_witness :
    determine_protocols appA appA ≠ []
    ∧ (determine_protocols appA appA).Nodup
    ∧ determine_protocols appA appA = [ConnectionProtocol.rest_api] := by
  have h := select_nonempty_nodup_default appA appA
  exact ⟨h.1, h.2.1, h.2.2 (by decide)⟩

/-- C10: every protocol the selector emits is REST-API or WebSocket; the
GraphQL, message-queue and direct-function tags of the protocol type are
never produced. -/
theorem select_only_rest_or_websocket (a b : ApplicationMetadata) (p : ConnectionProtocol)
    (hp : p ∈ determine_protocols a b) :
    p = ConnectionProtocol.rest_api ∨ p = ConnectionProtocol.websocket := by
  unfold determine_protocols at hp
  by_cases h1 : a.api_endpoints ≠ [] ∨ b.api_endpoints ≠ [] <;>
    by_cases h2 : a.type = ApplicationType.react_frontend ∨ a.type = ApplicationType.nodejs_typescript <;>
      simp [h1, h2] at hp <;> tauto

/-- C10 witness: the theorem applied to a concrete pair and the REST-API
member of its output. -/
theorem select_only_rest_or_websocket_witness :
    ConnectionProtocol.rest_api = ConnectionProtocol.rest_api
    ∨ ConnectionProtocol.rest_api = ConnectionProtocol.websocket :=
  select_only_rest_or_websocket appA appA ConnectionProtocol.rest_api (by decide)

/-- C5 counterexample: a text in which the router.post call occurs before
the app.get call still lists the app.get path first, because matches are
grouped by pattern, so the extractor does not return paths in call-site
order. -/
theorem route_order_not_textual :
    parse_routes_from_text "router.post(\x22/a\x22) app.get(\x22/b\x22)" = ["/b", "/a"]
    ∧ parse_routes_from_text "router.post(\x22/a\x22) app.get(\x22/b\x22)" ≠ ["/a", "/b"] := by
  decide

/-- C5 (amended): the extractor returns the matched paths grouped by the
fixed pattern order (app.get, app.post, app.put, app.delete, router.get,
router.post) and only within one pattern in text order: both orderings of
the two calls of the spec example yield the app.get path first, and a text
with no matching calls yields the empty sequence. -/
theorem route_extractor_grouped_by_pattern :
    parse_routes_from_text "app.get(\x22/api/users\x22) router.post(\x22/api/orders\x22)"
      = ["/api/users", "/api/orders"]
    ∧ parse_routes_from_text "router.post(\x22/api/orders\x22) app.get(\x22/api/users\x22)"
      = ["/api/users", "/api/orders"]
    ∧ parse_routes_from_text "no routes here" = [] := by
  decide

/-- C6 counterexample: a package name declared in both dependencies and
devDependencies appears twice in the extractor's result, which is
therefore not duplicate-free. -/
theorem dependencies_duplicated_across_sections :
    extract_dependencies (some dupManifest) = ["express", "express", "jest"]
    ∧ ¬ (extract_dependencies (some dupManifest)).Nodup
    ∧ (extract_dependencies (some dupManifest)).count "express" = 2 := by
  decide

/-- C6 (amended): the extractor returns the concatenation of the key lists
of the dependencies and devDependencies sections; when the two sections
are individually duplicate-free and disjoint (as in the spec's example),
the result is duplicate-free and contains exactly the union of the
declared names. -/
theorem dependencies_concat_of_sections (sc : Option (List (String × String)))
    (d dd : List String) (h1 : d.Nodup) (h2 : dd.Nodup) (h3 : ∀ x ∈ d, x ∉ dd) :
    (extract_dependencies
      (some { scripts := sc, dependencies := some d, devDependencies := some dd })).Nodup
    ∧ ∀ x, (x ∈ extract_dependencies
        (some { scripts := sc, dependencies := some d, devDependencies := some dd })
        ↔ (x ∈ d ∨ x ∈ dd)) := by
  constructor
  · simp only [extract_dependencies, Option.getD_some, List.nodup_append]
    exact ⟨h1, h2, fun x hx hx2 => h3 x hx hx2⟩
  · intro x
    simp [extract_dependencies]

/-- C6 witness: on the spec's example manifest the result is duplicate-free
and contains express. -/
theorem dependencies_concat_of_sections_witness :
    (extract_dependencies
      (some { scripts := none, dependencies := some ["express"],
              devDependencies := some ["jest"] })).Nodup
    ∧ ("express" ∈ extract_dependencies
      (some { scripts := none, dependencies := some ["express"],
              devDependencies := some ["jest"] })
      ↔ ("express" ∈ ["express"] ∨ "express" ∈ ["jest"])) := by
  have h := dependencies_concat_of_sections none ["express"] ["jest"]
    (by decide) (by decide) (by decide)
  exact ⟨h.1, h.2 "express"⟩

/-- C7 evidence: profiling a manifest-bearing application whose manifest
exists but fails to parse propagates the parse error instead of returning
an Application Record (json.load has no surrounding try/except), while an
absent manifest is tolerated and still yields a record with no port and no
dependencies. -/
theorem malformed_manifest_raises :
    analyze_application malformedManifestDir
      = Except.error "Expecting value: line 1 column 1 (char 0)"
    ∧ analyze_application absentManifestDir
      = Except.ok { name := "SpaceAgent"
                    type := ApplicationType.nodejs_typescript
                    base_path := "/workspace/SpaceAgent" } := by
  exact ⟨rfl, rfl⟩

/-- C8 counterexample: an application with a component-oriented source
directory but no manifest is classified as a Node.js app (script-runtime
web app), not as a React frontend, so the component rule does not apply
independently of manifest presence. -/
theorem components_without_manifest_not_frontend :
    determine_application_type componentsNoManifestDir = ApplicationType.nodejs_typescript
    ∧ determine_application_type componentsNoManifestDir ≠ ApplicationType.react_frontend := by
  decide

/-- C8 (amended): outside the explicit name override, classification is
React frontend exactly when a manifest is present and a component
directory convention also holds; without a manifest the result is always
the Node.js default, component convention or not. -/
theorem frontend_requires_manifest_and_components (dir : AppDir)
    (h : dir.name ≠ "ParadoxResolver") :
    (determine_application_type dir = ApplicationType.react_frontend ↔
      (dir.packageJson.isSome = true
        ∧ (dir.srcComponentsExists = true ∨ dir.clientSrcExists = true)))
    ∧ (dir.packageJson = none →
        determine_application_type dir = ApplicationType.nodejs_typescript) := by
  unfold determine_application_type
  by_cases h1 : dir.packageJson.isSome <;>
    by_cases h2 : dir.srcComponentsExists || dir.clientSrcExists <;>
      simp_all [Option.isSome_iff_exists]

/-- C8 witness: the theorem applied to the concrete componentsNoManifestDir. -/
theorem frontend_requires_manifest_and_components_witness :
    (determine_application_type componentsNoManifestDir = ApplicationType.react_frontend ↔
      (componentsNoManifestDir.packageJson.isSome = true
        ∧ (componentsNoManifestDir.srcComponentsExists = true
          ∨ componentsNoManifestDir.clientSrcExists = true)))
    ∧ (componentsNoManifestDir.packageJson = none →
        determine_application_type componentsNoManifestDir = ApplicationType.nodejs_typescript) :=
  frontend_requires_manifest_and_components componentsNoManifestDir (by decide)

/-- C9: every configuration the planner produces carries exactly the
source and target names of its pair, the selector's protocols for the two
looked-up records, empty data mappings and transformation rules, and the
default cadence constant (the source's real_time, which the spec calls
continuous). -/
theorem planner_config_fields (registry : List (String × ApplicationMetadata))
    (c : ConnectorConfig) (hc : c ∈ generate_all_connectors registry) :
    c.protocols = determine_protocols (dictGet registry c.source_app) (dictGet registry c.target_app)
    ∧ c.data_mappings = [] ∧ c.transformation_rules = [] ∧ c.sync_frequency = "real_time" := by
  unfold generate_all_connectors at hc
  rcases List.mem_map.mp hc with ⟨p, hp, rfl⟩
  exact ⟨rfl, rfl, rfl, rfl⟩

lemma mem_upperPairs {l : List String} {a b : String} (h : (a, b) ∈ upperPairs l) :
    a ∈ l ∧ b ∈ l := by
  induction l with
  | nil => simp [upperPairs] at h
  | cons x xs ih =>
    simp only [upperPairs, List.mem_append, List.mem_map, List.mem_filter] at h
    rcases h with ⟨y, ⟨hy, _⟩, heq⟩ | h
    · rcases Prod.mk.injEq .. ▸ heq with ⟨rfl, rfl⟩
      exact ⟨List.mem_cons_self .., List.mem_cons_of_mem _ hy⟩
    · exact ⟨List.mem_cons_of_mem _ (ih h).1, List.mem_cons_of_mem _ (ih h).2⟩

lemma upperPairs_ne {l : List String} {a b : String} (h : (a, b) ∈ upperPairs l) : a ≠ b := by
  induction l with
  | nil => simp [upperPairs] at h
  | cons x xs ih =>
    simp only [upperPairs, List.mem_append, List.mem_map, List.mem_filter,
      decide_eq_true_eq] at h
    rcases h with ⟨y, ⟨_, hxy⟩, heq⟩ | h
    · rcases Prod.mk.injEq .. ▸ heq with ⟨rfl, rfl⟩
      exact hxy
    · exact ih h

lemma upperPairs_total {l : List String} {x y : String} (hx : x ∈ l) (hy : y ∈ l)
    (hxy : x ≠ y) : (x, y) ∈ upperPairs l ∨ (y, x) ∈ upperPairs l := by
  induction l with
  | nil => simp at hx
  | cons z zs ih =>
    rcases List.mem_cons.mp hx with rfl | hx2
    · left
      simp only [upperPairs, List.mem_append, List.mem_map, List.mem_filter,
        decide_eq_true_eq]
      left
      exact ⟨y, ⟨(List.mem_cons.mp hy).resolve_left (fun hc => hxy hc.symm), hxy⟩, rfl⟩
    · rcases List.mem_cons.mp hy with rfl | hy2
      · right
        simp only [upperPairs, List.mem_append, List.mem_map, List.mem_filter,
          decide_eq_true_eq]
        left
        exact ⟨x, ⟨hx2, fun hc => hxy hc.symm⟩, rfl⟩
      · rcases ih hx2 hy2 with h | h
        · left
          simp only [upperPairs, List.mem_append]
          exact Or.inr h
        · right
          simp only [upperPairs, List.mem_append]
          exact Or.inr h

lemma upperPairs_length {l : List String} (h : l.Nodup) :
    (upperPairs l).length = l.length.choose 2 := by
  induction l with
  | nil => simp [upperPairs]
  | cons x xs ih =>
    rcases List.nodup_cons.mp h with ⟨hx, hxs⟩
    have hf : xs.filter (fun y => x ≠ y) = xs := by
      apply List.filter_eq_self.mpr
      intro b hb
      simp only [decide_eq_true_eq]
      exact fun hc => hx (hc ▸ hb)
    simp only [upperPairs, List.length_append, List.length_map, hf, ih hxs,
      List.length_cons, Nat.choose_succ_succ, Nat.choose_one_right]

lemma upperPairs_pairwise {l : List String} (h : l.Nodup) :
    (upperPairs l).Pairwise (fun p q => p ≠ q ∧ p ≠ (q.2, q.1)) := by
  induction l with
  | nil => simp [upperPairs]
  | cons x xs ih =>
    rcases List.nodup_cons.mp h with ⟨hx, hxs⟩
    rw [upperPairs, List.pairwise_append]
    refine ⟨?_, ih hxs, ?_⟩
    · rw [List.pairwise_map]
      have hnd : (xs.filter (fun y => x ≠ y)).Pairwise (fun a b => a ≠ b) :=
        hxs.filter _
      refine List.Pairwise.imp_of_mem ?_ hnd
      intro a b _ hb hab
      refine ⟨fun hc => ?_, fun hc => ?_⟩
      · simp only [Prod.mk.injEq] at hc
        exact hab hc.2
      · simp only [Prod.mk.injEq] at hc
        exact hx (hc.1 ▸ (List.mem_filter.mp hb).1)
    · intro p hp q hq
      rcases List.mem_map.mp hp with ⟨y, hy, rfl⟩
      rcases q with ⟨a, b⟩
      have hab := mem_upperPairs hq
      refine ⟨fun hc => ?_, fun hc => ?_⟩
      · simp only [Prod.mk.injEq] at hc
        exact hx (hc.1 ▸ hab.1)
      · simp only [Prod.mk.injEq] at hc
        exact hx (hc.1 ▸ hab.2)

lemma gen_pairs_eq (registry : List (String × ApplicationMetadata)) :
    (generate_all_connectors registry).map (fun c => (c.source_app, c.target_app))
      = upperPairs (registry.map Prod.fst) := by
  unfold generate_all_connectors
  rw [List.map_map]
  have h1 : ((fun c : ConnectorConfig => (c.source_app, c.target_app))
      ∘ (fun p : String × String => create_connector_config registry p.1 p.2))
      = fun p : String × String => (p.1, p.2) := by
    funext p
    rfl
  have h2 : (fun p : String × String => (p.1, p.2)) = id := by
    funext p
    rcases p with ⟨a, b⟩
    rfl
  rw [h1, h2, List.map_id]

/-- C2: on a registry with distinct names (a dict invariant), the planner
produces exactly n(n-1)/2 configurations: none pairs a name with itself,
no two configurations cover the same unordered pair, and every unordered
pair of distinct names is covered. -/
theorem plan_enumerates_all_unordered_pairs (registry : List (String × ApplicationMetadata))
    (h : (registry.map Prod.fst).Nodup) :
    (generate_all_connectors registry).length = registry.length * (registry.length - 1) / 2
    ∧ (∀ c ∈ generate_all_connectors registry, c.source_app ≠ c.target_app)
    ∧ ((generate_all_connectors registry).map (fun c => (c.source_app, c.target_app))).Pairwise
        (fun p q => p ≠ q ∧ p ≠ (q.2, q.1))
    ∧ (∀ x ∈ registry.map Prod.fst, ∀ y ∈ registry.map Prod.fst, x ≠ y →
        ∃ c ∈ generate_all_connectors registry,
          (c.source_app = x ∧ c.target_app = y) ∨ (c.source_app = y ∧ c.target_app = x)) := by
  have hmap := gen_pairs_eq registry
  refine ⟨?_, ?_, ?_, ?_⟩
  · have hlen : (generate_all_connectors registry).length
        = (upperPairs (registry.map Prod.fst)).length := by
      rw [← hmap, List.length_map]
    rw [hlen, upperPairs_length h, List.length_map, Nat.choose_two_right]
  · intro c hc
    have hmem : (c.source_app, c.target_app) ∈ upperPairs (registry.map Prod.fst) := by
      rw [← hmap]
      exact List.mem_map_of_mem _ hc
    exact upperPairs_ne hmem
  · rw [hmap]
    exact upperPairs_pairwise h
  · intro x hx y hy hxy
    rcases upperPairs_total hx hy hxy with hmem | hmem <;>
      · rw [← hmap] at hmem
        rcases List.mem_map.mp hmem with ⟨c, hc, hpair⟩
        have h1 := congrArg Prod.fst hpair
        have h2 := congrArg Prod.snd hpair
        simp only at h1 h2
        first
        | exact ⟨c, hc, Or.inl ⟨h1, h2⟩⟩
        | exact ⟨c, hc, Or.inr ⟨h1, h2⟩⟩

/-- C2 witness: the theorem applied to a concrete three-application
registry, whose planned configuration list has length 3. -/
theorem plan_enumerates_all_unordered_pairs_witness :
    (generate_all_connectors sampleRegistry3).length
      = sampleRegistry3.length * (sampleRegistry3.length - 1) / 2 :=
  (plan_enumerates_all_unordered_pairs sampleRegistry3 (by decide)).1

/-- C9 witness: the theorem applied to the first configuration planned for
a concrete two-application registry. -/
theorem planner_config_fields_witness :
    (create_connector_config sampleRegistry "HumanityFrontier" "MusicPortal").sync_frequency
      = "real_time" :=
  (planner_config_fields sampleRegistry
    (create_connector_config sampleRegistry "HumanityFrontier" "MusicPortal")
    (by decide)).2.2.2

lemma dropLit_eq_append : ∀ {l s r : List Char}, dropLit l s = some r ↔ s = l ++ r := by
  intro l
  induction l with
  | nil =>
    intro s r
    simp [dropLit, eq_comm]
  | cons a as ih =>
    intro s r
    cases s with
    | nil => simp [dropLit]
    | cons b bs =>
      by_cases hab : a = b
      · subst hab
        simp [dropLit, ih]
      · simp only [dropLit, if_neg hab, List.cons_append, List.cons.injEq]
        constructor
        · intro hc
          exact absurd hc (by simp)
        · intro hc
          exact absurd hc.1.symm hab

lemma matchAt_some_start {lit s : List Char} {pr : List Char × List Char}
    (h : matchAt lit s = some pr) :
    ∃ q rest2, s = lit ++ q :: rest2 ∧ isQuote q = true := by
  unfold matchAt at h
  cases hd : dropLit lit s with
  | none =>
    rw [hd] at h
    exact absurd h (by simp)
  | some rest1 =>
    rw [hd] at h
    cases rest1 with
    | nil => exact absurd h (by simp)
    | cons q rest2 =>
      by_cases hq : isQuote q
      · exact ⟨q, rest2, dropLit_eq_append.mp hd, hq⟩
      · simp [hq] at h

lemma scan_run : ∀ (p : List Char), (∀ c ∈ p, isQuote c = false) →
    ∀ (q2 : Char), isQuote q2 = true → ∀ (r : List Char),
      (p ++ q2 :: r).takeWhile (fun c => !(isQuote c)) = p
      ∧ (p ++ q2 :: r).dropWhile (fun c => !(isQuote c)) = q2 :: r := by
  intro p
  induction p with
  | nil =>
    intro _ q2 hq2 r
    simp [List.takeWhile_cons, List.dropWhile_cons, hq2]
  | cons a as ih =>
    intro hp q2 hq2 r
    have ha : isQuote a = false := hp a (List.mem_cons_self ..)
    have has : ∀ c ∈ as, isQuote c = false := fun c hc => hp c (List.mem_cons_of_mem _ hc)
    rcases ih has q2 hq2 r with ⟨h1, h2⟩
    simp [List.cons_append, List.takeWhile_cons, List.dropWhile_cons, ha, h1, h2]

lemma matchAt_exact {lit p v : List Char} {q q2 : Char} (hq : isQuote q = true)
    (hq2 : isQuote q2 = true) (hp : ∀ c ∈ p, isQuote c = false) (hpne : p ≠ []) :
    matchAt lit (lit ++ q :: (p ++ q2 :: v)) = some (p, v) := by
  have hd : dropLit lit (lit ++ q :: (p ++ q2 :: v)) = some (q :: (p ++ q2 :: v)) :=
    dropLit_eq_append.mpr rfl
  rcases scan_run p hp q2 hq2 v with ⟨h1, h2⟩
  unfold matchAt
  rw [hd]
  simp [hq, h1, h2, hq2, hpne]

lemma matchAt_none_shift {lit u w : List Char}
    (hu : ∀ c ∈ u, isQuote c = false) (hlit : ∀ c ∈ lit, isQuote c = false)
    (hne : u ≠ []) : matchAt lit (u ++ lit ++ w) = none := by
  cases hm : matchAt lit (u ++ lit ++ w) with
  | none => rfl
  | some pr =>
    exfalso
    obtain ⟨q, rest2, heq, hq⟩ := matchAt_some_start hm
    have hlt : lit.length < (u ++ lit).length := by
      have : 0 < u.length := List.length_pos.mpr hne
      simp [List.length_append]
      omega
    have h2 : ((u ++ lit) ++ w)[lit.length]? = (u ++ lit)[lit.length]? :=
      List.getElem?_append_left hlt
    have h3 : (lit ++ q :: rest2)[lit.length]? = some q := by
      rw [List.getElem?_append_right (le_refl lit.length)]
      simp
    have h4 : (u ++ lit)[lit.length]? = some q := by
      rw [← h2, heq, h3]
    have hqmem : q ∈ u ++ lit := List.getElem?_mem h4
    rcases List.mem_append.mp hqmem with h | h
    · rw [hu q h] at hq
      exact Bool.false_ne_true hq
    · rw [hlit q h] at hq
      exact Bool.false_ne_true hq

lemma findallAux_succ (lit : List Char) (fuel : Nat) (c : Char) (rest : List Char) :
    findallAux lit (fuel + 1) (c :: rest) =
      match matchAt lit (c :: rest) with
      | some pr => pr.1 :: findallAux lit fuel pr.2
      | none => findallAux lit fuel rest := rfl

lemma mem_findallAux_embedded {lit p v : List Char} {q q2 : Char}
    (hq : isQuote q = true) (hq2 : isQuote q2 = true)
    (hlit : ∀ c ∈ lit, isQuote c = false)
    (hp : ∀ c ∈ p, isQuote c = false) (hpne : p ≠ []) :
    ∀ (u : List Char), (∀ c ∈ u, isQuote c = false) →
      ∀ (fuel : Nat), (u ++ lit ++ q :: (p ++ q2 :: v)).length ≤ fuel →
        p ∈ findallAux lit fuel (u ++ lit ++ q :: (p ++ q2 :: v)) := by
  intro u
  induction u with
  | nil =>
    intro _ fuel hfuel
    simp only [List.nil_append] at hfuel ⊢
    cases hs : lit ++ q :: (p ++ q2 :: v) with
    | nil => exact absurd hs (by simp)
    | cons c rest =>
      rw [hs] at hfuel
      cases fuel with
      | zero => simp at hfuel
      | succ f =>
        rw [findallAux_succ, ← hs]
        simp only [matchAt_exact hq hq2 hp hpne]
        exact List.mem_cons_self ..
  | cons a u2 ih =>
    intro hu fuel hfuel
    have hu2 : ∀ c ∈ u2, isQuote c = false := fun c hc => hu c (List.mem_cons_of_mem _ hc)
    have hcons : (a :: u2) ++ lit ++ q :: (p ++ q2 :: v)
        = a :: (u2 ++ lit ++ q :: (p ++ q2 :: v)) := rfl
    cases fuel with
    | zero =>
      rw [hcons] at hfuel
      simp at hfuel
    | succ f =>
      rw [hcons, findallAux_succ]
      have hnone : matchAt lit (a :: (u2 ++ lit ++ q :: (p ++ q2 :: v))) = none := by
        rw [← hcons]
        exact matchAt_none_shift hu hlit (by simp)
      simp only [hnone]
      apply ih hu2 f
      rw [hcons] at hfuel
      simpa using Nat.le_of_succ_le_succ hfuel

/-- C4 counterexample: a router.put or router.delete call contributes
nothing to the extractor's result, while the same path behind app.put or
app.delete is extracted: the handler-times-verb grid of the claim does not
hold for the router handler with put and delete. -/
theorem router_put_delete_not_matched :
    parse_routes_from_text "router.put(\x22/p\x22)" = []
    ∧ parse_routes_from_text "router.delete(\x22/p\x22)" = []
    ∧ parse_routes_from_text "app.put(\x22/p\x22)" = ["/p"]
    ∧ parse_routes_from_text "app.delete(\x22/p\x22)" = ["/p"] := by
  decide

/-- C4 (amended): the matched handler-verb combinations are exactly the
six fixed patterns app.get, app.post, app.put, app.delete, router.get and
router.post; for each of these, a call site whose path literal is
non-empty and quote-free, preceded by any quote-free text, yields the path
literal in the extractor's result. -/
theorem route_extractor_matches_six_patterns (pat u p v : String)
    (hpat : pat ∈ express_patterns)
    (hu : ∀ c ∈ u.toList, isQuote c = false)
    (hp : ∀ c ∈ p.toList, isQuote c = false)
    (hpne : p.toList ≠ []) :
    p ∈ parse_routes_from_text (u ++ pat ++ "\x22" ++ p ++ "\x22" ++ v) := by
  have hq : isQuote (Char.ofNat 34) = true := by decide
  have hlit : ∀ c ∈ pat.toList, isQuote c = false := by
    fin_cases hpat <;> decide
  have h34 : ("\x22" : String).data = [Char.ofNat 34] := by decide
  have hs : (u ++ pat ++ "\x22" ++ p ++ "\x22" ++ v).toList
      = u.toList ++ pat.toList ++ Char.ofNat 34 :: (p.toList ++ Char.ofNat 34 :: v.toList) := by
    show (u ++ pat ++ "\x22" ++ p ++ "\x22" ++ v).data
        = u.data ++ pat.data ++ Char.ofNat 34 :: (p.data ++ Char.ofNat 34 :: v.data)
    rw [String.data_append, String.data_append, String.data_append, String.data_append,
      String.data_append, h34]
    simp [List.append_assoc]
  unfold parse_routes_from_text
  apply List.mem_map.mpr
  refine ⟨p.toList, List.mem_flatMap.mpr ⟨pat, hpat, ?_⟩, rfl⟩
  unfold findall
  rw [hs]
  exact mem_findallAux_embedded hq hq hlit hp hpne u.toList hu _ (le_refl _)

/-- C4 witness: the theorem applied to the app.put pattern with a
quote-free preceding context and the path /p. -/
theorem route_extractor_matches_six_patterns_witness :
    ("/p" : String) ∈ parse_routes_from_text ("x = 1; " ++ "app.put(" ++ "\x22" ++ "/p" ++ "\x22" ++ ");") :=
  route_extractor_matches_six_patterns "app.put(" "x = 1; " "/p" ");"
    (by decide) (by decide) (by decide) (by decide)
